import Mathlib

/-!
Shallow embedding of `amplify/data/createTodosHandler.ts`: the batch-create
Lambda handler for the custom `createTodos` mutation, together with the
DynamoDB conditional-write primitive it uses (`PutCommand` with
`ConditionExpression: 'attribute_not_exists(id)'`).

Modelling conventions:
* `randomUUID()` is modelled by an id-supply function `ids : Nat → String`
  giving the id generated for the item at each input position.
* `new Date().toISOString()` is modelled by a single `now : String`
  parameter taken once per invocation, exactly as the source hoists
  `const now` outside the loop.
* The DynamoDB table is an association list of stored items; the
  conditional put fails with `conditionFailed` when the id is already a
  key, and an oracle `errs : Nat → Bool` injects any other store-reported
  fault (throttling, infrastructure) for the item at each position.
* JavaScript optional fields are modelled with `JsonField`
  (absent / explicit null / string value), so that `content ?? null` and
  the conditional spread `...(owner && { owner })` keep their exact
  semantics, including the falsiness of the empty string.
* A thrown `Error` is `Except.error (message, store)`; the store is
  threaded into the error so that "zero writes were performed" is a
  provable statement about the state at throw time.
* The `.catch` attached to every put promise swallows the error after a
  `console.error` naming the failed input; those log events are modelled
  as the `failures` trace, each recording the original position of the
  item whose put failed and that item's input.
* `Promise.all` over the per-item put chains is modelled by processing
  items in input order: each item's outcome is independent and the
  claims proved below only concern counts, membership and final state,
  which do not depend on completion order.
-/

/-- A JavaScript object field that can be omitted, explicitly `null`,
or a string value. -/
inductive JsonField where
  | absent : JsonField
  | null : JsonField
  | str : String → JsonField
deriving DecidableEq, Repr

/-- Input for one todo inside the batch mutation arguments
(`{ title: string; content?: string | null }`).  `content = none` is
JavaScript `undefined` (field missing), `some none` is explicit `null`,
`some (some s)` is the string `s`. -/
structure TodoInput where
  title : String
  content : Option (Option String)
deriving DecidableEq, Repr

/-- The `Todo` record built by the handler (`newTodoItem` in the source):
generated id, caller title, coalesced content, batch timestamps, and the
conditionally-spread owner field. -/
structure Todo where
  id : String
  title : String
  content : JsonField
  createdAt : String
  updatedAt : String
  owner : JsonField
deriving DecidableEq, Repr

/-- The item actually persisted: `{ ...newTodoItem, __typename: 'Todo' }`. -/
structure StoredItem where
  todo : Todo
  typename : String
deriving DecidableEq, Repr

/-- The DynamoDB table backing the `Todo` model, as the list of persisted
items. -/
def Store : Type := List StoredItem

instance : DecidableEq Store := inferInstanceAs (DecidableEq (List StoredItem))

instance : Repr Store := inferInstanceAs (Repr (List StoredItem))

/-- The ids currently persisted in the store. -/
def keysOf (s : Store) : List String := s.map (fun it => it.todo.id)

/-- Outcome of one conditional put. -/
inductive PutResult where
  | success : PutResult
  | conditionFailed : PutResult
  | otherError : PutResult
deriving DecidableEq, Repr

/-- One `docClient.send(putCommand)` with
`ConditionExpression: 'attribute_not_exists(id)'`: with no infrastructure
fault (`err = false`) the write succeeds and persists the item exactly
when its id is not already a key, and reports `conditionFailed` otherwise;
`err = true` injects any other store-reported fault, which also leaves the
store unchanged. -/
def sendPut (err : Bool) (s : Store) (item : StoredItem) : Store × PutResult :=
  if err then (s, PutResult.otherError)
  else if item.todo.id ∈ keysOf s then (s, PutResult.conditionFailed)
  else (item :: s, PutResult.success)

/-- Caller identity as the handler reads it: `identity?.sub` and
`identity?.resolverContext?.issuer` (the optional resolver-context issuer
is flattened into one optional field). -/
structure AppSyncIdentity where
  sub : Option String
  issuer : Option String
deriving DecidableEq, Repr

/-- JavaScript truthiness of `identity?.sub`: `undefined` and the empty
string are falsy. -/
def strTruthy : Option String → Bool
  | none => false
  | some s => s ≠ ""

/-- The subject `identity?.sub` of an optional identity. -/
def subOf (identity : Option AppSyncIdentity) : Option String :=
  identity.bind (fun i => i.sub)

/-- The issuer `identity?.resolverContext?.issuer` of an optional
identity. -/
def issuerOf (identity : Option AppSyncIdentity) : Option String :=
  identity.bind (fun i => i.issuer)

/-- Nullish coalescing `todoInput.content ?? null`: `undefined` and `null` map to
explicit `null`; any string, the empty string included, is kept. -/
def contentField : Option (Option String) → JsonField
  | none => JsonField.null
  | some none => JsonField.null
  | some (some s) => JsonField.str s

/-- Conditional spread of the owner: the owner field is put onto the
record only when `identity?.sub` is truthy. -/
def ownerField (sub : Option String) : JsonField :=
  match sub with
  | none => JsonField.absent
  | some s => if s = "" then JsonField.absent else JsonField.str s

/-- The `newTodoItem` object built for one input
(source lines 64–73). -/
def mkTodo (id : String) (inp : TodoInput) (now : String)
    (owner : JsonField) : Todo :=
  { id := id
    title := inp.title
    content := contentField inp.content
    createdAt := now
    updatedAt := now
    owner := owner }

/-- Per-invocation trace of the fan-out loop: records pushed onto
`createdTodos`, the logged per-item failures (original position and
failed input, from the `console.error` in each put's `.catch`), and the
final store. -/
structure BatchTrace where
  created : List Todo
  failures : List (Nat × TodoInput)
  store : Store
deriving DecidableEq, Repr

/-- The `for (const todoInput of todosInput)` loop plus the joint await:
for the item at position `i`, generate its id, build `newTodoItem`,
issue the conditional put of the item with `__typename`, and classify
the settled outcome — success pushes the record onto `createdTodos`,
any failure is caught, logged and skipped. -/
def processItems (now : String) (owner : JsonField) (ids : Nat → String)
    (errs : Nat → Bool) : List TodoInput → Nat → Store → BatchTrace
  | [], _, s => { created := [], failures := [], store := s }
  | inp :: rest, i, s =>
    let todo := mkTodo (ids i) inp now owner
    let step := sendPut (errs i) s { todo := todo, typename := "Todo" }
    let tail := processItems now owner ids errs rest (i + 1) step.1
    match step.2 with
    | PutResult.success =>
      { created := todo :: tail.created
        failures := tail.failures
        store := tail.store }
    | PutResult.conditionFailed =>
      { created := tail.created
        failures := (i, inp) :: tail.failures
        store := tail.store }
    | PutResult.otherError =>
      { created := tail.created
        failures := (i, inp) :: tail.failures
        store := tail.store }

/-- What an invocation yields when it does not throw: the value returned
to AppSync (`Todo[] | null`, so an optional list), the logged per-item
failures, and the final store. -/
structure HandlerOutput where
  returned : Option (List Todo)
  failures : List (Nat × TodoInput)
  store : Store
deriving DecidableEq, Repr

/-- The exported `handler` (source lines 38–110).  Empty input returns
`[]` at once; then the fast-fail authentication check throws
`"Authentication required to create todos."` when `identity?.sub` is
falsy and the call is not on the API-key path; otherwise the fan-out
loop runs and the successfully created records are returned.  A thrown
error carries the store at throw time. -/
def handler (todosInput : List TodoInput) (identity : Option AppSyncIdentity)
    (now : String) (ids : Nat → String) (errs : Nat → Bool) (store : Store) :
    Except (String × Store) HandlerOutput :=
  let owner := subOf identity
  if todosInput.length = 0 then
    Except.ok { returned := some [], failures := [], store := store }
  else if ¬ strTruthy owner ∧ issuerOf identity ≠ some "apiKey" then
    Except.error ("Authentication required to create todos.", store)
  else
    let trace := processItems now (ownerField owner) ids errs todosInput 0 store
    Except.ok { returned := some trace.created
                failures := trace.failures
                store := trace.store }

/-- Each loop iteration settles its item exactly one way: the counts of
created records and logged failures always partition the processed list. -/
theorem processItems_length (now : String) (owner : JsonField) (ids : Nat → String)
    (errs : Nat → Bool) :
    ∀ (l : List TodoInput) (i : Nat) (s : Store),
      (processItems now owner ids errs l i s).created.length
        + (processItems now owner ids errs l i s).failures.length = l.length := by
  intro l
  induction l with
  | nil => intro i s; rfl
  | cons inp rest ih =>
    intro i s
    have h := ih (i + 1)
      (sendPut (errs i) s
        { todo := mkTodo (ids i) inp now owner, typename := "Todo" }).1
    simp only [processItems]
    cases hstep : (sendPut (errs i) s
        { todo := mkTodo (ids i) inp now owner, typename := "Todo" }).2 <;>
      simp only [hstep] <;> simp [List.length_cons] <;> omega

/-- C1: for every input batch, whenever the handler returns, the number
of created records plus the number of logged per-item failures equals
the length of the input sequence. -/
theorem handler_partitions_input (todosInput : List TodoInput)
    (identity : Option AppSyncIdentity) (now : String) (ids : Nat → String)
    (errs : Nat → Bool) (store : Store) (out : HandlerOutput)
    (created : List Todo)
    (hok : handler todosInput identity now ids errs store = Except.ok out)
    (hret : out.returned = some created) :
    created.length + out.failures.length = todosInput.length := by
  simp only [handler] at hok
  split at hok
  · next h0 =>
    cases hok
    simp only at hret
    cases hret
    simpa using h0.symm
  · next h0 =>
    split at hok
    · simp at hok
    · cases hok
      simp only at hret
      cases hret
      exact processItems_length now (ownerField (subOf identity)) ids errs
        todosInput 0 store

/-- Witness for C1 at a concrete two-item batch. -/
theorem handler_partitions_input_witness :
    ([(⟨"0", "A", JsonField.null, "T", "T", JsonField.str "user"⟩ : Todo),
      ⟨"1", "B", JsonField.str "c", "T", "T", JsonField.str "user"⟩]).length
      + ((⟨some [⟨"0", "A", JsonField.null, "T", "T", JsonField.str "user"⟩,
            ⟨"1", "B", JsonField.str "c", "T", "T", JsonField.str "user"⟩], [],
          [⟨⟨"1", "B", JsonField.str "c", "T", "T", JsonField.str "user"⟩, "Todo"⟩,
           ⟨⟨"0", "A", JsonField.null, "T", "T", JsonField.str "user"⟩, "Todo"⟩]⟩ :
          HandlerOutput)).failures.length
      = ([(⟨"A", none⟩ : TodoInput), ⟨"B", some (some "c")⟩]).length :=
  handler_partitions_input [⟨"A", none⟩, ⟨"B", some (some "c")⟩]
    (some ⟨some "user", none⟩) "T" (fun n => toString n) (fun _ => false)
    [] _ _ rfl rfl

/-- C5: calling the handler with an empty requests sequence immediately
returns an empty result — no created records, zero logged failures — and
the store is untouched (no store calls were performed). -/
theorem handler_empty_input (identity : Option AppSyncIdentity) (now : String)
    (ids : Nat → String) (errs : Nat → Bool) (store : Store) :
    handler [] identity now ids errs store
      = Except.ok { returned := some [], failures := [], store := store } := rfl

/-- C10: although the declared result type `Todo[] | null` admits null,
whenever the handler does not throw it returns an actual array, never
null. -/
theorem handler_never_returns_null (todosInput : List TodoInput)
    (identity : Option AppSyncIdentity) (now : String) (ids : Nat → String)
    (errs : Nat → Bool) (store : Store) (out : HandlerOutput)
    (hok : handler todosInput identity now ids errs store = Except.ok out) :
    out.returned ≠ none := by
  simp only [handler] at hok
  split at hok
  · cases hok; simp
  · split at hok
    · simp at hok
    · cases hok; simp

/-- Witness for C10 at a concrete invocation. -/
theorem handler_never_returns_null_witness :
    ((⟨some [⟨"0", "A", JsonField.null, "T", "T", JsonField.str "user"⟩], [],
        [⟨⟨"0", "A", JsonField.null, "T", "T", JsonField.str "user"⟩, "Todo"⟩]⟩ :
        HandlerOutput)).returned ≠ none :=
  handler_never_returns_null [⟨"A", none⟩] (some ⟨some "user", none⟩)
    "T" (fun n => toString n) (fun _ => false) [] _ rfl

/-- Counterexample to C2 as stated: an invocation with no caller identity
at all (so no subject) and not on the API-key path, but with an empty
requests list, does not raise `AuthenticationRequired` — the handler
returns the empty result normally, because the empty-input check runs
before the authentication check. -/
theorem auth_check_skipped_on_empty_input :
    handler [] none "T" (fun n => toString n) (fun _ => false) []
        = Except.ok { returned := some [], failures := [], store := [] } ∧
      (handler [] none "T" (fun n => toString n) (fun _ => false) []).isOk
        = true :=
  ⟨rfl, rfl⟩

/-- C2 (amended): for every invocation with a NON-EMPTY requests list,
no truthy caller subject, and not on the API-key path, the handler
throws `"Authentication required to create todos."` with the store
exactly as it was — zero writes performed. -/
theorem handler_requires_auth (todosInput : List TodoInput)
    (identity : Option AppSyncIdentity) (now : String) (ids : Nat → String)
    (errs : Nat → Bool) (store : Store)
    (hne : todosInput ≠ [])
    (hsub : strTruthy (subOf identity) = false)
    (hkey : issuerOf identity ≠ some "apiKey") :
    handler todosInput identity now ids errs store
      = Except.error ("Authentication required to create todos.", store) := by
  simp only [handler]
  rw [if_neg, if_pos]
  · exact ⟨by simp [hsub], hkey⟩
  · simpa using hne

/-- Witness for the amended C2 at a concrete invocation. -/
theorem handler_requires_auth_witness :
    handler [⟨"A", none⟩] none "T" (fun n => toString n) (fun _ => false)
        [] = Except.error ("Authentication required to create todos.", []) :=
  handler_requires_auth [⟨"A", none⟩] none "T" (fun n => toString n)
    (fun _ => false) [] (by simp) rfl (by simp [issuerOf])

/-- C4: once the authentication check passes, the handler never throws,
whatever per-item store outcomes occur — every item-level store error is
caught locally and an aggregated result is still returned.  The
universal quantification over the error oracle and the store covers
every combination of item-level failures. -/
theorem handler_survives_item_failures (todosInput : List TodoInput)
    (identity : Option AppSyncIdentity) (now : String) (ids : Nat → String)
    (errs : Nat → Bool) (store : Store)
    (hauth : strTruthy (subOf identity) = true
      ∨ issuerOf identity = some "apiKey") :
    ∃ out, handler todosInput identity now ids errs store = Except.ok out := by
  rcases h : handler todosInput identity now ids errs store with e | out
  · exfalso
    simp only [handler] at h
    split at h
    · simp at h
    · split at h
      · next hc =>
        rcases hauth with ha | ha
        · exact absurd ha (by simpa using hc.1)
        · exact hc.2 ha
      · simp at h
  · exact ⟨out, rfl⟩

/-- Witness for C4 at a concrete invocation in which every item write
fails with a store error: the handler still returns a result rather
than throwing. -/
theorem handler_survives_item_failures_witness :
    (handler [⟨"A", none⟩, ⟨"B", none⟩] (some ⟨some "user", none⟩) "T"
      (fun n => toString n) (fun _ => true) []).isOk = true := by
  rcases handler_survives_item_failures [⟨"A", none⟩, ⟨"B", none⟩]
      (some ⟨some "user", none⟩) "T" (fun n => toString n) (fun _ => true) []
      (Or.inl rfl) with ⟨out, hout⟩
  rw [hout]
  rfl

/-- Every record the loop pushes onto `createdTodos` is a `newTodoItem`
built from some input of the batch with the invocation's shared
timestamp and owner field. -/
theorem processItems_created_shape (now : String) (owner : JsonField)
    (ids : Nat → String) (errs : Nat → Bool) :
    ∀ (l : List TodoInput) (i : Nat) (s : Store) (t : Todo),
      t ∈ (processItems now owner ids errs l i s).created →
      ∃ j inp, inp ∈ l ∧ t = mkTodo (ids j) inp now owner := by
  intro l
  induction l with
  | nil => intro i s t ht; simp [processItems] at ht
  | cons inp rest ih =>
    intro i s t ht
    simp only [processItems] at ht
    cases hstep : (sendPut (errs i) s
        { todo := mkTodo (ids i) inp now owner, typename := "Todo" }).2 <;>
      simp only [hstep] at ht
    · rcases List.mem_cons.1 ht with h | h
      · exact ⟨i, inp, List.mem_cons_self _ _, h⟩
      · rcases ih (i + 1) _ t h with ⟨j, inp2, hmem, ht2⟩
        exact ⟨j, inp2, List.mem_cons_of_mem _ hmem, ht2⟩
    · rcases ih (i + 1) _ t ht with ⟨j, inp2, hmem, ht2⟩
      exact ⟨j, inp2, List.mem_cons_of_mem _ hmem, ht2⟩
    · rcases ih (i + 1) _ t ht with ⟨j, inp2, hmem, ht2⟩
      exact ⟨j, inp2, List.mem_cons_of_mem _ hmem, ht2⟩

/-- C6: every record created by one invocation carries the single
timestamp instant taken for that invocation, as both its creation and
its update timestamp. -/
theorem handler_single_timestamp (todosInput : List TodoInput)
    (identity : Option AppSyncIdentity) (now : String) (ids : Nat → String)
    (errs : Nat → Bool) (store : Store) (out : HandlerOutput)
    (created : List Todo) (t : Todo)
    (hok : handler todosInput identity now ids errs store = Except.ok out)
    (hret : out.returned = some created) (ht : t ∈ created) :
    t.createdAt = now ∧ t.updatedAt = now := by
  simp only [handler] at hok
  split at hok
  · cases hok
    simp only at hret
    cases hret
    simp at ht
  · split at hok
    · simp at hok
    · cases hok
      simp only at hret
      cases hret
      rcases processItems_created_shape now (ownerField (subOf identity))
        ids errs todosInput 0 store t ht with ⟨j, inp, hmem, ht2⟩
      subst ht2
      exact ⟨rfl, rfl⟩

/-- Witness for C6 at a concrete invocation. -/
theorem handler_single_timestamp_witness :
    (⟨"0", "A", JsonField.null, "T", "T", JsonField.str "user"⟩ : Todo).createdAt
        = "T" ∧
      (⟨"0", "A", JsonField.null, "T", "T", JsonField.str "user"⟩ : Todo).updatedAt
        = "T" :=
  handler_single_timestamp [⟨"A", none⟩] (some ⟨some "user", none⟩) "T"
    (fun n => toString n) (fun _ => false) []
    ⟨some [⟨"0", "A", JsonField.null, "T", "T", JsonField.str "user"⟩], [],
      [⟨⟨"0", "A", JsonField.null, "T", "T", JsonField.str "user"⟩, "Todo"⟩]⟩
    [⟨"0", "A", JsonField.null, "T", "T", JsonField.str "user"⟩]
    ⟨"0", "A", JsonField.null, "T", "T", JsonField.str "user"⟩
    rfl rfl (by decide)

/-- Case analysis for the conditional owner spread: it yields either no
field or exactly the nonempty subject string. -/
theorem ownerField_cases (u : Option String) :
    ownerField u = JsonField.absent ∨
    ∃ s, u = some s ∧ s ≠ "" ∧ ownerField u = JsonField.str s := by
  cases u with
  | none => exact Or.inl rfl
  | some s =>
    by_cases hs : s = ""
    · subst hs
      exact Or.inl (by simp [ownerField])
    · exact Or.inr ⟨s, rfl, hs, by simp [ownerField, hs]⟩

/-- C9: every created record's owner field is computed from the caller
identity's subject alone — whenever the owner field is attached at all,
the caller identity is present, its subject is a nonempty string, and
the owner is exactly that subject; it never depends on the
caller-supplied request fields. -/
theorem handler_owner_from_identity (todosInput : List TodoInput)
    (identity : Option AppSyncIdentity) (now : String) (ids : Nat → String)
    (errs : Nat → Bool) (store : Store) (out : HandlerOutput)
    (created : List Todo) (t : Todo)
    (hok : handler todosInput identity now ids errs store = Except.ok out)
    (hret : out.returned = some created) (ht : t ∈ created) :
    t.owner = ownerField (subOf identity) ∧
    (t.owner ≠ JsonField.absent →
      ∃ s, subOf identity = some s ∧ s ≠ "" ∧ t.owner = JsonField.str s
        ∧ identity ≠ none) := by
  simp only [handler] at hok
  split at hok
  · cases hok
    simp only at hret
    cases hret
    simp at ht
  · split at hok
    · simp at hok
    · cases hok
      simp only at hret
      cases hret
      rcases processItems_created_shape now (ownerField (subOf identity))
        ids errs todosInput 0 store t ht with ⟨j, inp, hmem, ht2⟩
      subst ht2
      refine ⟨rfl, ?_⟩
      intro habs
      rcases ownerField_cases (subOf identity) with h | ⟨s, h2, hs, heq⟩
      · exact absurd h habs
      · refine ⟨s, h2, hs, heq, ?_⟩
        intro hid
        rw [hid] at h2
        simp [subOf] at h2

/-- Witness for C9 at a concrete invocation. -/
theorem handler_owner_from_identity_witness :
    (⟨"0", "A", JsonField.null, "T", "T", JsonField.str "user"⟩ : Todo).owner
      = ownerField (subOf (some ⟨some "user", none⟩)) :=
  (handler_owner_from_identity [⟨"A", none⟩] (some ⟨some "user", none⟩) "T"
    (fun n => toString n) (fun _ => false) []
    ⟨some [⟨"0", "A", JsonField.null, "T", "T", JsonField.str "user"⟩], [],
      [⟨⟨"0", "A", JsonField.null, "T", "T", JsonField.str "user"⟩, "Todo"⟩]⟩
    [⟨"0", "A", JsonField.null, "T", "T", JsonField.str "user"⟩]
    ⟨"0", "A", JsonField.null, "T", "T", JsonField.str "user"⟩
    rfl rfl (by decide)).1

/-- C7: re-applying the conditional create-if-absent write for a key that
is already persisted leaves the store unchanged and reports a conflict —
so a retried batch never duplicates a record whose id is already stored —
while an item whose id was never persisted succeeds and is added. -/
theorem putIfAbsent_idempotent (s : Store) (a b : StoredItem)
    (ha : a.todo.id ∈ keysOf s) (hb : b.todo.id ∉ keysOf s) :
    sendPut false s a = (s, PutResult.conditionFailed) ∧
    sendPut false s b = (b :: s, PutResult.success) := by
  constructor
  · simp [sendPut, ha]
  · simp [sendPut, hb]

/-- Witness for C7: a one-item store, one clashing re-applied write and
one fresh write. -/
theorem putIfAbsent_idempotent_witness :
    sendPut false
        [⟨⟨"0", "A", JsonField.null, "T", "T", JsonField.absent⟩, "Todo"⟩]
        ⟨⟨"0", "A2", JsonField.null, "U", "U", JsonField.absent⟩, "Todo"⟩
      = ([⟨⟨"0", "A", JsonField.null, "T", "T", JsonField.absent⟩, "Todo"⟩],
          PutResult.conditionFailed) ∧
    sendPut false
        [⟨⟨"0", "A", JsonField.null, "T", "T", JsonField.absent⟩, "Todo"⟩]
        ⟨⟨"1", "B", JsonField.null, "U", "U", JsonField.absent⟩, "Todo"⟩
      = ([⟨⟨"1", "B", JsonField.null, "U", "U", JsonField.absent⟩, "Todo"⟩,
          ⟨⟨"0", "A", JsonField.null, "T", "T", JsonField.absent⟩, "Todo"⟩],
          PutResult.success) :=
  putIfAbsent_idempotent
    [⟨⟨"0", "A", JsonField.null, "T", "T", JsonField.absent⟩, "Todo"⟩]
    ⟨⟨"0", "A2", JsonField.null, "U", "U", JsonField.absent⟩, "Todo"⟩
    ⟨⟨"1", "B", JsonField.null, "U", "U", JsonField.absent⟩, "Todo"⟩
    (by decide) (by decide)

/-- Counterexample to C8 as stated: an item whose optional content is the
EMPTY STRING is persisted with content `""`, not with explicit null — the
nullish coalescing `content ?? null` only converts `undefined` and
`null`. -/
theorem empty_content_not_stored_as_null :
    handler [⟨"A", some (some "")⟩] (some ⟨some "user", none⟩) "T"
        (fun n => toString n) (fun _ => false) []
      = Except.ok
          ⟨some [⟨"0", "A", JsonField.str "", "T", "T", JsonField.str "user"⟩],
            [],
            [⟨⟨"0", "A", JsonField.str "", "T", "T", JsonField.str "user"⟩,
              "Todo"⟩]⟩ ∧
    JsonField.str "" ≠ JsonField.null :=
  ⟨rfl, by decide⟩

/-- C8 (amended): every created record's content field is present (never
omitted) and equals the nullish coalescing of its input's content — in
particular a MISSING (undefined or null) content is stored as explicit
null, while an empty-string content is stored as the empty string. -/
theorem handler_content_never_omitted (todosInput : List TodoInput)
    (identity : Option AppSyncIdentity) (now : String) (ids : Nat → String)
    (errs : Nat → Bool) (store : Store) (out : HandlerOutput)
    (created : List Todo) (t : Todo)
    (hok : handler todosInput identity now ids errs store = Except.ok out)
    (hret : out.returned = some created) (ht : t ∈ created) :
    t.content ≠ JsonField.absent ∧
    ∃ inp, inp ∈ todosInput ∧ t.content = contentField inp.content ∧
      ((inp.content = none ∨ inp.content = some none) →
        t.content = JsonField.null) := by
  simp only [handler] at hok
  split at hok
  · cases hok
    simp only at hret
    cases hret
    simp at ht
  · split at hok
    · simp at hok
    · cases hok
      simp only at hret
      cases hret
      rcases processItems_created_shape now (ownerField (subOf identity))
        ids errs todosInput 0 store t ht with ⟨j, inp, hmem, ht2⟩
      subst ht2
      constructor
      · rcases inp with ⟨title, _ | _ | c⟩ <;> simp [mkTodo, contentField]
      · refine ⟨inp, hmem, rfl, ?_⟩
        rintro (hc | hc) <;> rw [show (mkTodo (ids j) inp now
            (ownerField (subOf identity))).content = contentField inp.content
            from rfl, hc] <;> rfl

/-- Witness for the amended C8 at a concrete invocation whose single item
has no content field. -/
theorem handler_content_never_omitted_witness :
    (⟨"0", "A", JsonField.null, "T", "T", JsonField.str "user"⟩ : Todo).content
      ≠ JsonField.absent :=
  (handler_content_never_omitted [⟨"A", none⟩] (some ⟨some "user", none⟩) "T"
    (fun n => toString n) (fun _ => false) []
    ⟨some [⟨"0", "A", JsonField.null, "T", "T", JsonField.str "user"⟩], [],
      [⟨⟨"0", "A", JsonField.null, "T", "T", JsonField.str "user"⟩, "Todo"⟩]⟩
    [⟨"0", "A", JsonField.null, "T", "T", JsonField.str "user"⟩]
    ⟨"0", "A", JsonField.null, "T", "T", JsonField.str "user"⟩
    rfl rfl (by decide)).1

/-- If no item hits an infrastructure fault, every generated id is fresh
with respect to the store, and the generated ids are pairwise distinct,
then every item in the batch is created and no failure is logged. -/
theorem processItems_all_fresh (now : String) (owner : JsonField)
    (ids : Nat → String) (errs : Nat → Bool) :
    ∀ (l : List TodoInput) (i : Nat) (s : Store),
      (∀ j, j < l.length → errs (i + j) = false) →
      (∀ j, j < l.length → ids (i + j) ∉ keysOf s) →
      (∀ j k, j < l.length → k < l.length → j ≠ k → ids (i + j) ≠ ids (i + k)) →
      (processItems now owner ids errs l i s).created.length = l.length ∧
      (processItems now owner ids errs l i s).failures = [] := by
  intro l
  induction l with
  | nil => intro i s _ _ _; exact ⟨rfl, rfl⟩
  | cons inp rest ih =>
    intro i s herr hfresh hinj
    have herr0 : errs i = false := by simpa using herr 0 (by simp)
    have hfresh0 : ids i ∉ keysOf s := by simpa using hfresh 0 (by simp)
    have hstep : sendPut (errs i) s
        { todo := mkTodo (ids i) inp now owner, typename := "Todo" }
        = ({ todo := mkTodo (ids i) inp now owner, typename := "Todo" } :: s,
            PutResult.success) := by
      simp [sendPut, herr0, mkTodo]
      exact hfresh0
    have htail := ih (i + 1)
      ({ todo := mkTodo (ids i) inp now owner, typename := "Todo" } :: s)
      (by
        intro j hj
        have h := herr (j + 1) (by simpa using Nat.succ_lt_succ hj)
        have harg : i + (j + 1) = i + 1 + j := by omega
        rwa [harg] at h)
      (by
        intro j hj
        have hne : ids (i + 1 + j) ≠ ids i := by
          have h := hinj (j + 1) 0 (by simpa using Nat.succ_lt_succ hj)
            (by simp) (by omega)
          have harg : i + (j + 1) = i + 1 + j := by omega
          rw [harg] at h
          simpa using h
        have hns : ids (i + 1 + j) ∉ keysOf s := by
          have h := hfresh (j + 1) (by simpa using Nat.succ_lt_succ hj)
          have harg : i + (j + 1) = i + 1 + j := by omega
          rwa [harg] at h
        simp [keysOf, mkTodo]
        exact ⟨hne, by simpa [keysOf] using hns⟩)
      (by
        intro j k hj hk hjk
        have h := hinj (j + 1) (k + 1) (by simpa using Nat.succ_lt_succ hj)
          (by simpa using Nat.succ_lt_succ hk) (by omega)
        have harg1 : i + (j + 1) = i + 1 + j := by omega
        have harg2 : i + (k + 1) = i + 1 + k := by omega
        rwa [harg1, harg2] at h)
    simp only [processItems, hstep]
    constructor
    · simpa using htail.1
    · simpa using htail.2

/-- If exactly the item at offset `k` has a generated id that is already
persisted and every other item is fresh and fault-free, then all other
items are created and exactly one failure is logged: the conflicting
item, at its original position. -/
theorem processItems_single_conflict (now : String) (owner : JsonField)
    (ids : Nat → String) (errs : Nat → Bool) :
    ∀ (l : List TodoInput) (i : Nat) (s : Store) (k : Nat) (hk : k < l.length),
      (∀ j, j < l.length → errs (i + j) = false) →
      (∀ j k2, j < l.length → k2 < l.length → j ≠ k2 →
        ids (i + j) ≠ ids (i + k2)) →
      ids (i + k) ∈ keysOf s →
      (∀ j, j < l.length → j ≠ k → ids (i + j) ∉ keysOf s) →
      (processItems now owner ids errs l i s).created.length + 1 = l.length ∧
      (processItems now owner ids errs l i s).failures
        = [(i + k, l.get ⟨k, hk⟩)] := by
  intro l
  induction l with
  | nil => intro i s k hk; exact absurd hk (by simp)
  | cons inp rest ih =>
    intro i s k hk herr hinj hconf hfresh
    have herr0 : errs i = false := by simpa using herr 0 (by simp)
    cases k with
    | zero =>
      have hconf0 : ids i ∈ keysOf s := by simpa using hconf
      have hstep : sendPut (errs i) s
          { todo := mkTodo (ids i) inp now owner, typename := "Todo" }
          = (s, PutResult.conditionFailed) := by
        simp [sendPut, herr0, mkTodo]
        exact hconf0
      have htail := processItems_all_fresh now owner ids errs rest (i + 1) s
        (by
          intro j hj
          have h := herr (j + 1) (by simpa using Nat.succ_lt_succ hj)
          have harg : i + (j + 1) = i + 1 + j := by omega
          rwa [harg] at h)
        (by
          intro j hj
          have h := hfresh (j + 1) (by simpa using Nat.succ_lt_succ hj)
            (by omega)
          have harg : i + (j + 1) = i + 1 + j := by omega
          rwa [harg] at h)
        (by
          intro j k2 hj hk2 hjk
          have h := hinj (j + 1) (k2 + 1) (by simpa using Nat.succ_lt_succ hj)
            (by simpa using Nat.succ_lt_succ hk2) (by omega)
          have harg1 : i + (j + 1) = i + 1 + j := by omega
          have harg2 : i + (k2 + 1) = i + 1 + k2 := by omega
          rwa [harg1, harg2] at h)
      simp only [processItems, hstep]
      constructor
      · simpa using htail.1
      · simp [htail.2]
    | succ k2 =>
      have hk2 : k2 < rest.length := by simpa using Nat.lt_of_succ_lt_succ hk
      have hfresh0 : ids i ∉ keysOf s := by
        have := hfresh 0 (by simp) (by omega)
        simpa using this
      have hstep : sendPut (errs i) s
          { todo := mkTodo (ids i) inp now owner, typename := "Todo" }
          = ({ todo := mkTodo (ids i) inp now owner, typename := "Todo" } :: s,
              PutResult.success) := by
        simp [sendPut, herr0, mkTodo]
        exact hfresh0
      have htail := ih (i + 1)
        ({ todo := mkTodo (ids i) inp now owner, typename := "Todo" } :: s)
        k2 hk2
        (by
          intro j hj
          have h := herr (j + 1) (by simpa using Nat.succ_lt_succ hj)
          have harg : i + (j + 1) = i + 1 + j := by omega
          rwa [harg] at h)
        (by
          intro j j2 hj hj2 hjj
          have h := hinj (j + 1) (j2 + 1) (by simpa using Nat.succ_lt_succ hj)
            (by simpa using Nat.succ_lt_succ hj2) (by omega)
          have harg1 : i + (j + 1) = i + 1 + j := by omega
          have harg2 : i + (j2 + 1) = i + 1 + j2 := by omega
          rwa [harg1, harg2] at h)
        (by
          have h := hconf
          have harg : i + (k2 + 1) = i + 1 + k2 := by omega
          rw [harg] at h
          simp [keysOf]
          right
          simpa [keysOf] using h)
        (by
          intro j hj hjk
          have hne : ids (i + 1 + j) ≠ ids i := by
            have h := hinj (j + 1) 0 (by simpa using Nat.succ_lt_succ hj)
              (by simp) (by omega)
            have harg : i + (j + 1) = i + 1 + j := by omega
            rw [harg] at h
            simpa using h
          have hns : ids (i + 1 + j) ∉ keysOf s := by
            have h := hfresh (j + 1) (by simpa using Nat.succ_lt_succ hj)
              (by omega)
            have harg : i + (j + 1) = i + 1 + j := by omega
            rwa [harg] at h
          simp [keysOf, mkTodo]
          exact ⟨hne, by simpa [keysOf] using hns⟩)
      simp only [processItems, hstep]
      constructor
      · have := htail.1
        simp only [List.length_cons] at this ⊢
        omega
      · have := htail.2
        simp only at this ⊢
        rw [this]
        have harg : i + 1 + k2 = i + (k2 + 1) := by omega
        simp [harg]

/-- C3: if the authentication check passes and exactly one item among the
batch hits a store uniqueness conflict (its generated id is already
persisted) while every other item is fault-free with a fresh, distinct
id, then the handler returns: the created records number N-1, and
exactly one failure is logged, at the conflicting item's original
position, recording that item's input. -/
theorem handler_single_conflict (todosInput : List TodoInput)
    (identity : Option AppSyncIdentity) (now : String) (ids : Nat → String)
    (errs : Nat → Bool) (store : Store) (k : Nat) (hk : k < todosInput.length)
    (hauth : strTruthy (subOf identity) = true
      ∨ issuerOf identity = some "apiKey")
    (herr : ∀ j, j < todosInput.length → errs j = false)
    (hinj : ∀ j, j < todosInput.length → ∀ k2, k2 < todosInput.length →
      j ≠ k2 → ids j ≠ ids k2)
    (hconf : ids k ∈ keysOf store)
    (hfresh : ∀ j, j < todosInput.length → j ≠ k → ids j ∉ keysOf store) :
    handler todosInput identity now ids errs store
      = Except.ok
          ⟨some (processItems now (ownerField (subOf identity)) ids errs
              todosInput 0 store).created,
            (processItems now (ownerField (subOf identity)) ids errs
              todosInput 0 store).failures,
            (processItems now (ownerField (subOf identity)) ids errs
              todosInput 0 store).store⟩ ∧
    (processItems now (ownerField (subOf identity)) ids errs
        todosInput 0 store).created.length + 1 = todosInput.length ∧
    (processItems now (ownerField (subOf identity)) ids errs
        todosInput 0 store).failures = [(k, todosInput.get ⟨k, hk⟩)] := by
  have h0 : ¬ todosInput.length = 0 := by omega
  have hmain := processItems_single_conflict now (ownerField (subOf identity))
    ids errs todosInput 0 store k hk
    (by intro j hj; simpa using herr j hj)
    (by intro j k2 hj hk2 hjk; simpa using hinj j hj k2 hk2 hjk)
    (by simpa using hconf)
    (by intro j hj hjk; simpa using hfresh j hj hjk)
  have hB : ¬ (¬ (strTruthy (subOf identity) = true)
      ∧ issuerOf identity ≠ some "apiKey") := by
    intro hc
    rcases hauth with ha | ha
    · exact hc.1 ha
    · exact hc.2 ha
  refine ⟨?_, hmain.1, by simpa using hmain.2⟩
  simp only [handler]
  rw [if_neg h0, if_neg hB]

/-- Witness for C3: a two-item batch over a store already holding the id
generated for the first item — one record is created and the single
failure is logged at position 0 with that item's input. -/
theorem handler_single_conflict_witness :
    (processItems "T" (ownerField (subOf (some ⟨some "user", none⟩)))
        (fun n => toString n) (fun _ => false) [⟨"A", none⟩, ⟨"B", none⟩] 0
        [⟨⟨"0", "X", JsonField.null, "S", "S", JsonField.absent⟩,
          "Todo"⟩]).created.length + 1 = 2 ∧
    (processItems "T" (ownerField (subOf (some ⟨some "user", none⟩)))
        (fun n => toString n) (fun _ => false) [⟨"A", none⟩, ⟨"B", none⟩] 0
        [⟨⟨"0", "X", JsonField.null, "S", "S", JsonField.absent⟩,
          "Todo"⟩]).failures = [(0, ⟨"A", none⟩)] := by
  have h := handler_single_conflict [⟨"A", none⟩, ⟨"B", none⟩]
    (some ⟨some "user", none⟩) "T" (fun n => toString n) (fun _ => false)
    [⟨⟨"0", "X", JsonField.null, "S", "S", JsonField.absent⟩, "Todo"⟩]
    0 (by decide) (Or.inl rfl) (by decide) (by decide) (by decide) (by decide)
  exact ⟨h.2.1, by simpa using h.2.2⟩
